import Mathlib

/-!
Verification of the weird-sentences analyzer (`src/server.js`).

The analyzer's `POST /analyze` handler trims the submitted sentence, counts
its words by `sentence.split(/\s+/).filter(Boolean).length`, calls the
Hugging Face provider for per-token log-probabilities, reduces them to a
perplexity `exp(-avgLogProb)`, maps perplexity to an integer weirdness score
`Math.min(100, Math.max(0, Math.round((Math.log(ppl + 1) ** 1.7) * 11)))`,
and on any failure in the try-block falls back to a result with weirdness 0,
a fixed failure display string and an error message.  `escapeHtml` rewrites
the five HTML-significant characters to entities before interpolation.

This file embeds those computations:
* strings are `List Char`; `trim`, `splitWs` (JS `split(/\s+/)` semantics),
  and `escapeHtml` are executable list functions;
* numbers are `ℝ`; JS `Math.round` is `⌊x + 1/2⌋` (round half toward +∞);
* the handler's control flow is `analyze`, a total function over an
  environment recording the credential and the provider outcome.
-/

namespace WeirdSentences

/-- Whitespace test matching the character class `\s` of the split regex
(ASCII part; the claims only involve ASCII whitespace). -/
def isWs (c : Char) : Bool :=
  c = ' ' || c = '\t' || c = '\n' || c = '\r' || c = Char.ofNat 11 || c = Char.ofNat 12

/-- JS `String.prototype.trim`: remove leading and trailing whitespace. -/
def trim (l : List Char) : List Char :=
  ((l.dropWhile isWs).reverse.dropWhile isWs).reverse

/-- Worker for `splitWs`.  The Bool records whether we are inside a
whitespace run that has already terminated the previous fragment (JS
`split(/\s+/)` treats a maximal whitespace run as one separator). -/
def splitWsAux : Bool → List Char → List Char → List (List Char)
  | _, cur, [] => [cur.reverse]
  | skipping, cur, c :: cs =>
    if isWs c then
      if skipping then splitWsAux true cur cs
      else cur.reverse :: splitWsAux true [] cs
    else splitWsAux false (c :: cur) cs

/-- JS `sentence.split(/\s+/)`: fragments between maximal whitespace runs,
including an empty leading (resp. trailing) fragment when the string starts
(resp. ends) with whitespace. -/
def splitWs (l : List Char) : List (List Char) :=
  splitWsAux false [] l

/-- `src/server.js` line 40:
`const wordCount = sentence.split(/\s+/).filter(Boolean).length;`
where `sentence` is the trimmed request body (line 34). -/
def wordCount (s : List Char) : Nat :=
  ((splitWs (trim s)).filter (fun w => !w.isEmpty)).length

/-- Worker for `countWords`; the Bool records whether the previous character
belonged to a word. -/
def countWordsAux : Bool → List Char → Nat
  | _, [] => 0
  | inWord, c :: cs =>
    if isWs c then countWordsAux false cs
    else (if inWord then 0 else 1) + countWordsAux true cs

/-- Modelled from the spec: the number of maximal non-whitespace runs of a
string — the spec's "number of non-empty fragments obtained by splitting …
on runs of whitespace", stated independently of the split function. -/
def countWords (l : List Char) : Nat :=
  countWordsAux false l

/-- The double-quote character. -/
def quotC : Char := Char.ofNat 34

/-- The single-quote (apostrophe) character. -/
def aposC : Char := Char.ofNat 39

/-- JS `str.replace(/t/g, r)` for a single-character pattern `t`. -/
def replaceChar (t : Char) (r : List Char) : List Char → List Char
  | [] => []
  | c :: cs => (if c = t then r else [c]) ++ replaceChar t r cs

/-- `src/server.js` lines 149–156: sequential global replaces of
`&`, `<`, `>`, `"`, `'` by their HTML entities, innermost first. -/
def escapeHtml (s : List Char) : List Char :=
  replaceChar aposC "&#039;".data
    (replaceChar quotC "&quot;".data
      (replaceChar '>' "&gt;".data
        (replaceChar '<' "&lt;".data
          (replaceChar '&' "&amp;".data s))))

/-- Per-character entity substitution: what each of the five
HTML-significant characters is replaced by, all others kept. -/
def escChar (c : Char) : List Char :=
  if c = '&' then "&amp;".data
  else if c = '<' then "&lt;".data
  else if c = '>' then "&gt;".data
  else if c = quotC then "&quot;".data
  else if c = aposC then "&#039;".data
  else [c]

/-- Simultaneous (one-pass) per-character escaping. -/
def escapeHtmlSim : List Char → List Char
  | [] => []
  | c :: cs => escChar c ++ escapeHtmlSim cs

/- ### Numeric core and handler model -/

/-- One prefill token as consumed by the handler: `data.details.prefill`
entries carry an optional `logprob` field (`token.logprob` may be absent). -/
structure Token where
  logprob : Option ℝ

/-- `data.details` as far as the handler reads it: the prefill token list. -/
structure HFDetails where
  prefill : List Token

/-- Outcome of the provider call, covering every branch the handler's
try-block distinguishes: `fetch` rejecting (transport failure),
`!hfResponse.ok` (non-success status), and a parsed body whose
`details` may be missing. -/
inductive FetchOutcome where
  | transportFailure : FetchOutcome
  | httpFailure : Nat → FetchOutcome
  | ok : Option HFDetails → FetchOutcome

/-- The handler's environment: the `HF_TOKEN` environment variable
(`none` = unset) and what the provider call would produce. -/
structure Env where
  hfToken : Option String
  fetch : FetchOutcome

/-- JS truthiness of `process.env.HF_TOKEN`: falsy when unset or empty. -/
def tokenPresent (e : Env) : Bool :=
  match e.hfToken with
  | none => false
  | some t => !t.isEmpty

noncomputable section

open Real

/-- `src/server.js` lines 80–82:
`data.details.prefill.map(token => token.logprob || 0).reduce((a,b) => a+b, 0)`
— a missing `logprob` contributes 0. -/
def totalLogProb (ts : List Token) : ℝ :=
  (ts.map (fun t => t.logprob.getD 0)).sum

/-- `src/server.js` line 85: `totalLogProb / tokenCount`. -/
def avgLogProb (ts : List Token) : ℝ :=
  totalLogProb ts / ts.length

/-- `src/server.js` line 86: `Math.exp(-avgLogProb)`. -/
def ppl (ts : List Token) : ℝ :=
  Real.exp (-(avgLogProb ts))

/-- JS `Math.round`: round half toward positive infinity, `⌊x + 1/2⌋`. -/
def jsRound (x : ℝ) : ℤ :=
  ⌊x + 1 / 2⌋

/-- The pre-clamp score `(Math.log(ppl + 1) ** 1.7) * 11`
(`src/server.js` line 89). -/
def rawScore (p : ℝ) : ℝ :=
  Real.log (p + 1) ^ (1.7 : ℝ) * 11

/-- `src/server.js` lines 88–90:
`Math.min(100, Math.max(0, Math.round((Math.log(ppl + 1) ** 1.7) * 11)))`. -/
def weirdness (p : ℝ) : ℤ :=
  min 100 (max 0 (jsRound (rawScore p)))

/-- Modelled from the spec: round half away from zero (for non-negative
arguments this is `⌊x + 1/2⌋`, for negative ones the mirror image). -/
def specRound (x : ℝ) : ℤ :=
  if 0 ≤ x then ⌊x + 1 / 2⌋ else -⌊-x + 1 / 2⌋

/-- The `perplexityInfo` display value.  `initial` is `'—'`, `failure` is
the fixed string `'Error calculating weirdness'`, and `success p` is
`` `Perplexity ≈ ${p.toFixed(1)}` `` (the digit formatting itself is out of
the spec's scope). -/
inductive PerplexityInfo where
  | initial : PerplexityInfo
  | success : ℝ → PerplexityInfo
  | failure : PerplexityInfo

/-- The error message the catch-block installs (`src/server.js` line 100). -/
def hfErrorMessage : String :=
  "Could not reach Hugging Face. Check logs or try again later."

/-- What the rendered page carries per request: word count, weirdness,
perplexity display, optional error message. -/
structure ScoreResult where
  wordCount : Nat
  weirdnessScore : ℤ
  perplexityInfo : PerplexityInfo
  errorMessage : Option String

/-- The catch-block fallback: `weirdness` keeps its initial 0,
`perplexityInfo = 'Error calculating weirdness'`, `errorMessage` set. -/
def failResult (wc : Nat) : ScoreResult :=
  { wordCount := wc, weirdnessScore := 0,
    perplexityInfo := PerplexityInfo.failure,
    errorMessage := some hfErrorMessage }

/-- Outcome of one `POST /analyze` request: `none` models the redirect on
empty input, and `fetchAttempted` records whether the provider call was
reached. -/
structure AnalyzeOutcome where
  result : Option ScoreResult
  fetchAttempted : Bool

/-- The `POST /analyze` handler (`src/server.js` lines 33–101): trim the
body, redirect on empty input, count words, then in the try-block check
`HF_TOKEN`, call the provider, require `data.details.prefill.length`, and
score; every `throw` lands in the catch-block producing `failResult`. -/
def analyze (e : Env) (body : Option (List Char)) : AnalyzeOutcome :=
  let sentence := trim (body.getD [])
  if sentence.isEmpty then ⟨none, false⟩
  else
    let wc := ((splitWs sentence).filter (fun w => !w.isEmpty)).length
    if tokenPresent e = false then ⟨some (failResult wc), false⟩
    else
      match e.fetch with
      | FetchOutcome.transportFailure => ⟨some (failResult wc), true⟩
      | FetchOutcome.httpFailure _ => ⟨some (failResult wc), true⟩
      | FetchOutcome.ok none => ⟨some (failResult wc), true⟩
      | FetchOutcome.ok (some d) =>
        if d.prefill.isEmpty then ⟨some (failResult wc), true⟩
        else
          ⟨some { wordCount := wc,
                  weirdnessScore := weirdness (ppl d.prefill),
                  perplexityInfo := PerplexityInfo.success (ppl d.prefill),
                  errorMessage := none }, true⟩

/-- Any of the provider-path failures of the claim: missing credential,
transport failure, non-success status, missing details, or empty prefill. -/
def providerFailure (e : Env) : Prop :=
  tokenPresent e = false ∨
  e.fetch = FetchOutcome.transportFailure ∨
  (∃ s, e.fetch = FetchOutcome.httpFailure s) ∨
  e.fetch = FetchOutcome.ok none ∨
  (∃ d, e.fetch = FetchOutcome.ok (some d) ∧ d.prefill = [])

end

/- ### Word-count lemmas -/

theorem splitWsAux_count (l : List Char) :
    (∀ cur : List Char,
      ((splitWsAux false cur l).filter (fun w => !w.isEmpty)).length
        = (if cur.isEmpty then 0 else 1) + countWordsAux (!cur.isEmpty) l) ∧
    ((splitWsAux true [] l).filter (fun w => !w.isEmpty)).length
        = countWordsAux false l := by
  induction l with
  | nil =>
    constructor
    · intro cur
      cases cur with
      | nil => simp [splitWsAux, countWordsAux]
      | cons a as => simp [splitWsAux, countWordsAux]
    · simp [splitWsAux, countWordsAux]
  | cons c cs ih =>
    constructor
    · intro cur
      by_cases hws : isWs c
      · have h2 := ih.2
        cases cur with
        | nil => simp [splitWsAux, countWordsAux, hws, h2]
        | cons a as => simp [splitWsAux, countWordsAux, hws, h2, Nat.add_comm]
      · have h1 := ih.1 (c :: cur)
        cases cur with
        | nil => simp [splitWsAux, countWordsAux, hws, h1]
        | cons a as => simp [splitWsAux, countWordsAux, hws, h1]
    · by_cases hws : isWs c
      · simp [splitWsAux, countWordsAux, hws, ih.2]
      · have h1 := ih.1 [c]
        simp [splitWsAux, countWordsAux, hws, h1]

theorem wordCount_eq_countWords (s : List Char) :
    wordCount s = countWords (trim s) := by
  have h := (splitWsAux_count (trim s)).1 []
  simpa [wordCount, splitWs, countWords] using h

/- ### escapeHtml lemmas -/

theorem replaceChar_append (t : Char) (r a b : List Char) :
    replaceChar t r (a ++ b) = replaceChar t r a ++ replaceChar t r b := by
  induction a with
  | nil => simp [replaceChar]
  | cons c cs ih => simp [replaceChar, ih]

theorem escapeHtml_append (a b : List Char) :
    escapeHtml (a ++ b) = escapeHtml a ++ escapeHtml b := by
  simp only [escapeHtml, replaceChar_append]

theorem escapeHtml_cons (c : Char) (cs : List Char) :
    escapeHtml (c :: cs) = escapeHtml [c] ++ escapeHtml cs := by
  have h : (c :: cs) = [c] ++ cs := rfl
  rw [h, escapeHtml_append]

theorem escapeHtml_single (c : Char) : escapeHtml [c] = escChar c := by
  by_cases h1 : c = '&'
  · subst h1; decide
  · by_cases h2 : c = '<'
    · subst h2; decide
    · by_cases h3 : c = '>'
      · subst h3; decide
      · by_cases h4 : c = quotC
        · subst h4; decide
        · by_cases h5 : c = aposC
          · subst h5; decide
          · simp [escapeHtml, replaceChar, escChar, h1, h2, h3, h4, h5]

theorem escapeHtml_eq_sim (s : List Char) : escapeHtml s = escapeHtmlSim s := by
  induction s with
  | nil => decide
  | cons c cs ih =>
    rw [escapeHtml_cons, escapeHtml_single, ih]
    rfl

theorem escChar_no_specials (c : Char) :
    '<' ∉ escChar c ∧ '>' ∉ escChar c ∧ quotC ∉ escChar c ∧ aposC ∉ escChar c := by
  unfold escChar
  split
  · decide
  · split
    · decide
    · split
      · decide
      · split
        · decide
        · split
          · decide
          · rename_i h1 h2 h3 h4 h5
            simp only [List.mem_singleton]
            exact ⟨fun h => h2 h.symm, fun h => h3 h.symm,
                   fun h => h4 h.symm, fun h => h5 h.symm⟩

theorem escapeHtmlSim_no_specials (s : List Char) :
    '<' ∉ escapeHtmlSim s ∧ '>' ∉ escapeHtmlSim s ∧
      quotC ∉ escapeHtmlSim s ∧ aposC ∉ escapeHtmlSim s := by
  induction s with
  | nil => simp [escapeHtmlSim]
  | cons c cs ih =>
    have hc := escChar_no_specials c
    simp only [escapeHtmlSim, List.mem_append]
    refine ⟨?_, ?_, ?_, ?_⟩ <;>
      rintro (h | h) <;> first
        | exact hc.1 h | exact hc.2.1 h | exact hc.2.2.1 h | exact hc.2.2.2 h
        | exact ih.1 h | exact ih.2.1 h | exact ih.2.2.1 h | exact ih.2.2.2 h

/- ### Numeric helper lemmas: the exponent 1.7 as 17/10 -/

theorem rpow17_pow10 (x : ℝ) (hx : 0 ≤ x) :
    (x ^ (1.7 : ℝ)) ^ (10 : ℕ) = x ^ (17 : ℕ) := by
  have h17 : (1.7 : ℝ) = 17 / 10 := by norm_num
  calc (x ^ (1.7 : ℝ)) ^ (10 : ℕ)
      = (x ^ (1.7 : ℝ)) ^ ((10 : ℕ) : ℝ) := (Real.rpow_natCast _ 10).symm
    _ = x ^ ((1.7 : ℝ) * ((10 : ℕ) : ℝ)) := (Real.rpow_mul hx _ _).symm
    _ = x ^ ((17 : ℕ) : ℝ) := by rw [h17]; norm_num
    _ = x ^ (17 : ℕ) := Real.rpow_natCast x 17

theorem le_rpow17 {q x : ℝ} (hx : 0 ≤ x) (h : q ^ (10 : ℕ) ≤ x ^ (17 : ℕ)) :
    q ≤ x ^ (1.7 : ℝ) := by
  have hx17 : 0 ≤ x ^ (1.7 : ℝ) := Real.rpow_nonneg hx _
  have hpow : q ^ (10 : ℕ) ≤ (x ^ (1.7 : ℝ)) ^ (10 : ℕ) := by
    rw [rpow17_pow10 x hx]
    exact h
  exact le_of_pow_le_pow_left₀ (by norm_num) hx17 hpow

theorem rpow17_lt {x q : ℝ} (hx : 0 ≤ x) (hq : 0 ≤ q)
    (h : x ^ (17 : ℕ) < q ^ (10 : ℕ)) : x ^ (1.7 : ℝ) < q := by
  have hpow : (x ^ (1.7 : ℝ)) ^ (10 : ℕ) < q ^ (10 : ℕ) := by
    rw [rpow17_pow10 x hx]
    exact h
  exact lt_of_pow_lt_pow_left₀ 10 hq hpow

/- ### Numeric helper lemmas: bounds on the logarithms involved -/

theorem log_e_add_one_gt : (13 : ℝ) / 10 < Real.log (Real.exp 1 + 1) := by
  have hpos : (0 : ℝ) < Real.exp 1 + 1 := by positivity
  rw [Real.lt_log_iff_exp_lt hpos]
  refine lt_of_pow_lt_pow_left₀ 10 (by positivity) ?_
  have he : Real.exp ((13 : ℝ) / 10) ^ (10 : ℕ) = Real.exp 1 ^ (13 : ℕ) := by
    rw [← Real.exp_nat_mul, ← Real.exp_nat_mul]
    norm_num
  rw [he]
  have k1 : Real.exp 1 ^ (13 : ℕ) ≤ (2.7182818286 : ℝ) ^ (13 : ℕ) :=
    pow_le_pow_left₀ (Real.exp_pos 1).le Real.exp_one_lt_d9.le 13
  have k2 : (2.7182818286 : ℝ) ^ (13 : ℕ) < (3.7182818283 : ℝ) ^ (10 : ℕ) := by
    norm_num
  have k3 : (3.7182818283 : ℝ) ^ (10 : ℕ) ≤ (Real.exp 1 + 1) ^ (10 : ℕ) :=
    pow_le_pow_left₀ (by norm_num) (by linarith [Real.exp_one_gt_d9]) 10
  calc Real.exp 1 ^ (13 : ℕ) ≤ (2.7182818286 : ℝ) ^ (13 : ℕ) := k1
    _ < (3.7182818283 : ℝ) ^ (10 : ℕ) := k2
    _ ≤ (Real.exp 1 + 1) ^ (10 : ℕ) := k3

theorem log_e_add_one_lt : Real.log (Real.exp 1 + 1) < (67 : ℝ) / 51 := by
  have hpos : (0 : ℝ) < Real.exp 1 + 1 := by positivity
  rw [Real.log_lt_iff_lt_exp hpos]
  refine lt_of_pow_lt_pow_left₀ 51 (Real.exp_pos _).le ?_
  have he : Real.exp ((67 : ℝ) / 51) ^ (51 : ℕ) = Real.exp 1 ^ (67 : ℕ) := by
    rw [← Real.exp_nat_mul, ← Real.exp_nat_mul]
    norm_num
  rw [he]
  have k1 : (Real.exp 1 + 1) ^ (51 : ℕ) ≤ (3.7182818286 : ℝ) ^ (51 : ℕ) :=
    pow_le_pow_left₀ (by positivity) (by linarith [Real.exp_one_lt_d9]) 51
  have k2 : (3.7182818286 : ℝ) ^ (51 : ℕ) < (2.7182818283 : ℝ) ^ (67 : ℕ) := by
    norm_num
  have k3 : (2.7182818283 : ℝ) ^ (67 : ℕ) ≤ Real.exp 1 ^ (67 : ℕ) :=
    pow_le_pow_left₀ (by norm_num) Real.exp_one_gt_d9.le 67
  calc (Real.exp 1 + 1) ^ (51 : ℕ) ≤ (3.7182818286 : ℝ) ^ (51 : ℕ) := k1
    _ < (2.7182818283 : ℝ) ^ (67 : ℕ) := k2
    _ ≤ Real.exp 1 ^ (67 : ℕ) := k3

theorem exp_ten_bounds : (22026 : ℝ) < Real.exp 10 ∧ Real.exp 10 < 22027 := by
  have he : Real.exp (10 : ℝ) = Real.exp 1 ^ (10 : ℕ) := by
    rw [← Real.exp_nat_mul]
    norm_num
  constructor
  · have k : (22026 : ℝ) < (2.7182818283 : ℝ) ^ (10 : ℕ) := by norm_num
    have k2 : (2.7182818283 : ℝ) ^ (10 : ℕ) ≤ Real.exp 1 ^ (10 : ℕ) :=
      pow_le_pow_left₀ (by norm_num) Real.exp_one_gt_d9.le 10
    rw [he]
    linarith
  · have k : (2.7182818286 : ℝ) ^ (10 : ℕ) < 22027 := by norm_num
    have k2 : Real.exp 1 ^ (10 : ℕ) ≤ (2.7182818286 : ℝ) ^ (10 : ℕ) :=
      pow_le_pow_left₀ (Real.exp_pos 1).le Real.exp_one_lt_d9.le 10
    rw [he]
    linarith

/- ### More helper lemmas -/

theorem totalLogProb_filterMap (ts : List Token) :
    totalLogProb ts = (ts.filterMap (fun t => t.logprob)).sum := by
  induction ts with
  | nil => simp [totalLogProb]
  | cons t ts ih =>
    cases h : t.logprob with
    | none =>
      simp only [totalLogProb, List.map_cons, List.sum_cons, List.filterMap_cons, h,
        Option.getD_none] at *
      simpa using ih
    | some x =>
      simp only [totalLogProb, List.map_cons, List.sum_cons, List.filterMap_cons, h,
        Option.getD_some] at *
      rw [ih]

theorem rawScore_nonneg {p : ℝ} (hp : 0 < p) : 0 ≤ rawScore p := by
  have hlog : 0 ≤ Real.log (p + 1) := Real.log_nonneg (by linarith)
  exact mul_nonneg (Real.rpow_nonneg hlog _) (by norm_num)

theorem weirdness_eq_100_of_log {p : ℝ} (h : (10 : ℝ) ≤ Real.log (p + 1)) :
    weirdness p = 100 := by
  have h10 : (10 : ℝ) ≤ Real.log (p + 1) ^ (1.7 : ℝ) := by
    calc (10 : ℝ) = (10 : ℝ) ^ (1 : ℝ) := (Real.rpow_one 10).symm
      _ ≤ (10 : ℝ) ^ (1.7 : ℝ) :=
          Real.rpow_le_rpow_of_exponent_le (by norm_num) (by norm_num)
      _ ≤ Real.log (p + 1) ^ (1.7 : ℝ) :=
          Real.rpow_le_rpow (by norm_num) h (by norm_num)
  have hraw : (110 : ℝ) ≤ rawScore p := by
    unfold rawScore
    linarith
  have hjr : (110 : ℤ) ≤ jsRound (rawScore p) := by
    unfold jsRound
    refine Int.le_floor.mpr ?_
    push_cast
    linarith
  unfold weirdness
  have hmax : max 0 (jsRound (rawScore p)) = jsRound (rawScore p) :=
    max_eq_right (by linarith)
  rw [hmax]
  exact min_eq_left (by linarith)

theorem weirdness_exp_one : weirdness (Real.exp 1) = 17 := by
  have hlb : (13 : ℝ) / 10 < Real.log (Real.exp 1 + 1) := log_e_add_one_gt
  have hub : Real.log (Real.exp 1 + 1) < (67 : ℝ) / 51 := log_e_add_one_lt
  have hx0 : (0 : ℝ) ≤ Real.log (Real.exp 1 + 1) := by linarith
  have klb : ((3 : ℝ) / 2) ^ (10 : ℕ) ≤ Real.log (Real.exp 1 + 1) ^ (17 : ℕ) :=
    le_trans (by norm_num : ((3 : ℝ) / 2) ^ (10 : ℕ) ≤ ((13 : ℝ) / 10) ^ (17 : ℕ))
      (pow_le_pow_left₀ (by norm_num) hlb.le 17)
  have kub : Real.log (Real.exp 1 + 1) ^ (17 : ℕ) < ((35 : ℝ) / 22) ^ (10 : ℕ) :=
    lt_of_le_of_lt (pow_le_pow_left₀ hx0 hub.le 17) (by norm_num)
  have hr_lb : (3 : ℝ) / 2 ≤ Real.log (Real.exp 1 + 1) ^ (1.7 : ℝ) := le_rpow17 hx0 klb
  have hr_ub : Real.log (Real.exp 1 + 1) ^ (1.7 : ℝ) < (35 : ℝ) / 22 :=
    rpow17_lt hx0 (by norm_num) kub
  have hraw1 : (33 : ℝ) / 2 ≤ rawScore (Real.exp 1) := by
    unfold rawScore
    linarith
  have hraw2 : rawScore (Real.exp 1) < 35 / 2 := by
    unfold rawScore
    linarith
  have hfloor : jsRound (rawScore (Real.exp 1)) = 17 := by
    unfold jsRound
    rw [Int.floor_eq_iff]
    constructor
    · push_cast
      linarith
    · push_cast
      linarith
  unfold weirdness
  rw [hfloor]
  decide

theorem weirdness_one : weirdness 1 = 6 := by
  have h2 : (1 : ℝ) + 1 = 2 := by norm_num
  have hlb : (0.6931471803 : ℝ) < Real.log 2 := Real.log_two_gt_d9
  have hub : Real.log 2 < 0.6931471808 := Real.log_two_lt_d9
  have hx0 : (0 : ℝ) ≤ Real.log 2 := by linarith
  have klb : ((1 : ℝ) / 2) ^ (10 : ℕ) ≤ Real.log 2 ^ (17 : ℕ) :=
    le_trans (by norm_num : ((1 : ℝ) / 2) ^ (10 : ℕ) ≤ ((0.6931471803 : ℝ)) ^ (17 : ℕ))
      (pow_le_pow_left₀ (by norm_num) hlb.le 17)
  have kub : Real.log 2 ^ (17 : ℕ) < ((13 : ℝ) / 22) ^ (10 : ℕ) :=
    lt_of_le_of_lt (pow_le_pow_left₀ hx0 hub.le 17) (by norm_num)
  have hr_lb : (1 : ℝ) / 2 ≤ Real.log 2 ^ (1.7 : ℝ) := le_rpow17 hx0 klb
  have hr_ub : Real.log 2 ^ (1.7 : ℝ) < (13 : ℝ) / 22 := rpow17_lt hx0 (by norm_num) kub
  have hraw1 : (11 : ℝ) / 2 ≤ rawScore 1 := by
    unfold rawScore
    rw [h2]
    linarith
  have hraw2 : rawScore 1 < 13 / 2 := by
    unfold rawScore
    rw [h2]
    linarith
  have hfloor : jsRound (rawScore 1) = 6 := by
    unfold jsRound
    rw [Int.floor_eq_iff]
    constructor
    · push_cast
      linarith
    · push_cast
      linarith
  unfold weirdness
  rw [hfloor]
  decide

theorem weirdness_exp_ten : weirdness (Real.exp 10) = 100 := by
  refine weirdness_eq_100_of_log ?_
  have h1 : Real.log (Real.exp 10) < Real.log (Real.exp 10 + 1) :=
    Real.log_lt_log (Real.exp_pos 10) (by linarith)
  rw [Real.log_exp] at h1
  linarith

/- ### Claim theorems -/

/-- C1: for every finite positive perplexity `p` the Weirdness Scorer returns
`min(100, max(0, round((ln(p+1))^1.7 * 11)))` where `round` has
round-half-away-from-zero semantics — on the non-negative raw scores produced
by positive perplexity, JS `Math.round` (round half up) agrees with it. -/
theorem c1_weirdness_formula (p : ℝ) (hp : 0 < p) :
    weirdness p = min 100 (max 0 (specRound (Real.log (p + 1) ^ (1.7 : ℝ) * 11))) := by
  have hraw : 0 ≤ Real.log (p + 1) ^ (1.7 : ℝ) * 11 := rawScore_nonneg hp
  unfold weirdness jsRound rawScore specRound
  rw [if_pos hraw]

/-- Witness for C1 at `p = 1`. -/
theorem c1_weirdness_formula_witness :
    weirdness 1 = min 100 (max 0 (specRound (Real.log (1 + 1) ^ (1.7 : ℝ) * 11))) :=
  c1_weirdness_formula 1 (by norm_num)

/-- C2: for every finite positive perplexity the weirdness score is an
integer (it lives in `ℤ` by construction) in `[0, 100]`, and it saturates at
100 for extreme perplexity (from 22026 on, just below `e^10`). -/
theorem c2_weirdness_range (p : ℝ) (hp : 0 < p) :
    0 ≤ weirdness p ∧ weirdness p ≤ 100 ∧ (22026 ≤ p → weirdness p = 100) := by
  refine ⟨le_min (by norm_num) (le_max_left _ _), min_le_left _ _, ?_⟩
  intro hp2
  refine weirdness_eq_100_of_log ?_
  have h1 : Real.exp 10 ≤ 22027 := exp_ten_bounds.2.le
  exact (Real.le_log_iff_exp_le (by linarith)).mpr (by linarith)

/-- Witness for C2 at `p = 22026`, where the saturation branch is active. -/
theorem c2_weirdness_range_witness :
    0 ≤ weirdness 22026 ∧ weirdness 22026 ≤ 100 ∧
      ((22026 : ℝ) ≤ 22026 → weirdness 22026 = 100) :=
  c2_weirdness_range 22026 (by norm_num)

/-- C3: for every non-empty sentence, on every provider-path failure
(missing credential, transport failure, non-success status, missing details,
or empty token list) the analyze operation returns a `ScoreResult` with
weirdness 0, the fixed failure display value, and a populated error message;
being a total Lean function, `analyze` propagates no exception. -/
theorem c3_analyze_failure (e : Env) (s : List Char)
    (hs : (trim s).isEmpty = false) (hf : providerFailure e) :
    ∃ r, (analyze e (some s)).result = some r ∧ r.weirdnessScore = 0 ∧
      r.perplexityInfo = PerplexityInfo.failure ∧
      r.errorMessage = some hfErrorMessage := by
  refine ⟨failResult (((splitWs (trim s)).filter (fun w => !w.isEmpty)).length),
    ?_, rfl, rfl, rfl⟩
  rcases hf with htok | hfetch | ⟨st, hfetch⟩ | hfetch | ⟨d, hfetch, hempty⟩
  · simp [analyze, hs, htok]
  · cases htok : tokenPresent e <;> simp [analyze, hs, htok, hfetch]
  · cases htok : tokenPresent e <;> simp [analyze, hs, htok, hfetch]
  · cases htok : tokenPresent e <;> simp [analyze, hs, htok, hfetch]
  · cases htok : tokenPresent e <;> simp [analyze, hs, htok, hfetch, hempty]

/-- Witness for C3: unset credential and a transport failure. -/
theorem c3_analyze_failure_witness :
    ∃ r, (analyze ⟨none, FetchOutcome.transportFailure⟩ (some "hi".data)).result
        = some r ∧ r.weirdnessScore = 0 ∧
      r.perplexityInfo = PerplexityInfo.failure ∧
      r.errorMessage = some hfErrorMessage :=
  c3_analyze_failure ⟨none, FetchOutcome.transportFailure⟩ "hi".data rfl (Or.inl rfl)

/-- C4: for positive perplexities `p1 < p2` the scorer is non-decreasing,
both before the final clamp (raw score and rounded score) and after it. -/
theorem c4_weirdness_mono (p1 p2 : ℝ) (hp1 : 0 < p1) (h12 : p1 < p2) :
    rawScore p1 ≤ rawScore p2 ∧
    jsRound (rawScore p1) ≤ jsRound (rawScore p2) ∧
    weirdness p1 ≤ weirdness p2 := by
  have hl : Real.log (p1 + 1) ≤ Real.log (p2 + 1) :=
    Real.log_le_log (by linarith) (by linarith)
  have hx1 : 0 ≤ Real.log (p1 + 1) := Real.log_nonneg (by linarith)
  have hr : Real.log (p1 + 1) ^ (1.7 : ℝ) ≤ Real.log (p2 + 1) ^ (1.7 : ℝ) :=
    Real.rpow_le_rpow hx1 hl (by norm_num)
  have hraw : rawScore p1 ≤ rawScore p2 := by
    unfold rawScore
    linarith
  have hjr : jsRound (rawScore p1) ≤ jsRound (rawScore p2) := by
    unfold jsRound
    exact Int.floor_le_floor (by linarith)
  refine ⟨hraw, hjr, ?_⟩
  unfold weirdness
  exact min_le_min (le_refl _) (max_le_max (le_refl _) hjr)

/-- Witness for C4 at `p1 = 1`, `p2 = 2`. -/
theorem c4_weirdness_mono_witness :
    rawScore 1 ≤ rawScore 2 ∧
    jsRound (rawScore 1) ≤ jsRound (rawScore 2) ∧
    weirdness 1 ≤ weirdness 2 :=
  c4_weirdness_mono 1 2 (by norm_num) (by norm_num)

/-- C5: for every non-empty token sequence the Perplexity Estimator computes
`perplexity = exp(-avgLogProb)`, which is strictly positive and equals 1
exactly when the average log-probability is 0. -/
theorem c5_ppl_spec (ts : List Token) (h : ts ≠ []) :
    ppl ts = Real.exp (-(avgLogProb ts)) ∧ 0 < ppl ts ∧
      (ppl ts = 1 ↔ avgLogProb ts = 0) := by
  refine ⟨rfl, Real.exp_pos _, ?_⟩
  unfold ppl
  rw [Real.exp_eq_one_iff]
  exact neg_eq_zero

/-- Witness for C5 on the singleton token list with log-probability 0. -/
theorem c5_ppl_spec_witness :
    ppl [⟨some 0⟩] = Real.exp (-(avgLogProb [⟨some 0⟩])) ∧ 0 < ppl [⟨some 0⟩] ∧
      (ppl [⟨some 0⟩] = 1 ↔ avgLogProb [⟨some 0⟩] = 0) :=
  c5_ppl_spec [⟨some 0⟩] (by simp)

/-- C6: the word count is the number of non-empty fragments of the trimmed
sentence split on whitespace runs — equivalently, the number of maximal
non-whitespace runs — and `"  hello   world  "` yields word count 2. -/
theorem c6_wordCount_spec :
    (∀ s : List Char, wordCount s = countWords (trim s)) ∧
    wordCount "  hello   world  ".data = 2 :=
  ⟨wordCount_eq_countWords, by decide⟩

/-- C7: the three spec scenarios: log-probs `[-1,-1,-1]` give average -1,
perplexity `e` (≈ 2.71828) and weirdness 17; `[0]` gives perplexity 1 and
weirdness 6; `[-10]` gives perplexity `e^10` (between 22026 and 22027),
whose weirdness clamps to 100. -/
theorem c7_scenarios :
    avgLogProb [⟨some (-1)⟩, ⟨some (-1)⟩, ⟨some (-1)⟩] = -1 ∧
    ppl [⟨some (-1)⟩, ⟨some (-1)⟩, ⟨some (-1)⟩] = Real.exp 1 ∧
    |Real.exp 1 - 2.71828| < 0.0001 ∧
    weirdness (Real.exp 1) = 17 ∧
    avgLogProb [⟨some 0⟩] = 0 ∧
    ppl [⟨some 0⟩] = 1 ∧
    weirdness 1 = 6 ∧
    ppl [⟨some (-10)⟩] = Real.exp 10 ∧
    22026 < Real.exp 10 ∧ Real.exp 10 < 22027 ∧
    weirdness (Real.exp 10) = 100 := by
  have ha : avgLogProb [⟨some (-1)⟩, ⟨some (-1)⟩, ⟨some (-1)⟩] = -1 := by
    simp [avgLogProb, totalLogProb]
    norm_num
  have hb : avgLogProb [⟨some 0⟩] = 0 := by
    simp [avgLogProb, totalLogProb]
  have hc : avgLogProb [⟨some (-10)⟩] = -10 := by
    simp [avgLogProb, totalLogProb]
  refine ⟨ha, ?_, ?_, weirdness_exp_one, hb, ?_, weirdness_one, ?_, exp_ten_bounds.1,
    exp_ten_bounds.2, weirdness_exp_ten⟩
  · rw [ppl, ha]
    norm_num
  · rw [abs_lt]
    constructor
    · linarith [Real.exp_one_gt_d9]
    · linarith [Real.exp_one_lt_d9]
  · rw [ppl, hb]
    simp
  · rw [ppl, hc]
    norm_num

/-- C8: entries with a missing log-probability contribute 0 to the total used
for the average (first conjunct, `token.logprob || 0`), and such sequences
are not rejected: with a credential, a successful fetch and a non-empty
prefill list, analyze produces a success-shaped result. -/
theorem c8_lenient_missing_logprob (e : Env) (s : List Char) (d : HFDetails)
    (hs : (trim s).isEmpty = false) (ht : tokenPresent e = true)
    (hf : e.fetch = FetchOutcome.ok (some d)) (hne : d.prefill ≠ []) :
    totalLogProb d.prefill = (d.prefill.filterMap (fun t => t.logprob)).sum ∧
    ∃ r, (analyze e (some s)).result = some r ∧ r.errorMessage = none ∧
      r.weirdnessScore = weirdness (ppl d.prefill) := by
  have hne2 : d.prefill.isEmpty = false := by
    cases hp : d.prefill with
    | nil => exact absurd hp hne
    | cons a as => rfl
  refine ⟨totalLogProb_filterMap d.prefill, ?_⟩
  refine ⟨{ wordCount := ((splitWs (trim s)).filter (fun w => !w.isEmpty)).length,
            weirdnessScore := weirdness (ppl d.prefill),
            perplexityInfo := PerplexityInfo.success (ppl d.prefill),
            errorMessage := none }, ?_, rfl, rfl⟩
  simp [analyze, hs, ht, hf, hne2]

/-- Witness for C8 on a prefill list whose single token has no logprob. -/
theorem c8_lenient_missing_logprob_witness :
    totalLogProb ([⟨none⟩] : List Token)
        = (([⟨none⟩] : List Token).filterMap (fun t => t.logprob)).sum ∧
    ∃ r, (analyze ⟨some "t", FetchOutcome.ok (some ⟨[⟨none⟩]⟩)⟩
            (some "hi".data)).result = some r ∧ r.errorMessage = none ∧
      r.weirdnessScore = weirdness (ppl ([⟨none⟩] : List Token)) :=
  c8_lenient_missing_logprob ⟨some "t", FetchOutcome.ok (some ⟨[⟨none⟩]⟩)⟩
    "hi".data ⟨[⟨none⟩]⟩ rfl rfl rfl (by simp)

/-- C9: with a non-empty sentence and no credential, the handler throws at the
`HF_TOKEN` check before the provider call: no fetch is attempted and the
request still yields the fallback result. -/
theorem c9_no_fetch_without_token (e : Env) (s : List Char)
    (hs : (trim s).isEmpty = false) (ht : tokenPresent e = false) :
    (analyze e (some s)).fetchAttempted = false ∧
    ∃ r, (analyze e (some s)).result = some r ∧ r.weirdnessScore = 0 ∧
      r.errorMessage = some hfErrorMessage := by
  constructor
  · simp [analyze, hs, ht]
  · exact ⟨failResult (((splitWs (trim s)).filter (fun w => !w.isEmpty)).length),
      by simp [analyze, hs, ht], rfl, rfl⟩

/-- Witness for C9: unset token, provider would have succeeded. -/
theorem c9_no_fetch_without_token_witness :
    (analyze ⟨none, FetchOutcome.ok none⟩ (some "hi".data)).fetchAttempted = false ∧
    ∃ r, (analyze ⟨none, FetchOutcome.ok none⟩ (some "hi".data)).result = some r ∧
      r.weirdnessScore = 0 ∧ r.errorMessage = some hfErrorMessage :=
  c9_no_fetch_without_token ⟨none, FetchOutcome.ok none⟩ "hi".data rfl rfl

/-- C10: `escapeHtml` equals the simultaneous per-character entity
substitution (each of `&`, `<`, `>`, `"`, `'` becomes its entity), and its
output never contains a raw `<`, `>`, `"` or `'`, so escaped sentences cannot
inject markup. -/
theorem c10_escapeHtml_safe (s : List Char) :
    escapeHtml s = escapeHtmlSim s ∧
    '<' ∉ escapeHtml s ∧ '>' ∉ escapeHtml s ∧
      quotC ∉ escapeHtml s ∧ aposC ∉ escapeHtml s := by
  have he := escapeHtml_eq_sim s
  have hn := escapeHtmlSim_no_specials s
  rw [he]
  exact ⟨rfl, hn.1, hn.2.1, hn.2.2.1, hn.2.2.2⟩

end WeirdSentences
